import Mathlib

/-!
Verification of the AiCE MSA pre-processing pipeline (`scaProcessMSA.py`) and the
frequency/DSSP merge utility (`predicted_single_HF_mutations.py`).

The Python pipeline is shallowly embedded below: pure list/string manipulations become
Lean functions over `List`/`String`, numpy floats become `Rat`, fallible code paths
(`try`/`except`, `sys.exit`) become `Except`/`Option` values, and external collaborators
from `scaTools.py` (which is not part of this repository snapshot) are modelled from the
specification where the claims need them.
-/

/-- Column labels of the alignment-to-structure (ATS) map: either the gap sentinel
(the string "-" in the Python code), a sequential integer position (produced by
Python `range`), or a textual structure-position label. -/
inductive Label where
  | gap : Label
  | num : Nat → Label
  | str : String → Label
deriving DecidableEq, Repr

/-- The sentinel distance used by `scaProcessMSA.py` line 175 for column pairs
without a structure position (`dist_new[j,k] = 1000`). -/
def UNREACHABLE : ℚ := 1000

/-- Entry accessor for a matrix represented as a list of rows
(out-of-range reads default to 0, matching the `np.zeros` initialisation). -/
def matGet (d : List (List ℚ)) (j k : ℕ) : ℚ :=
  (d.getD j []).getD k 0

/-- Embedding of the distance-matrix remap loop, `scaProcessMSA.py` lines 170-180:
start from `np.zeros((len(ats), len(ats)))`, skip the diagonal (`k != j`), write the
sentinel when either label is the gap, and otherwise copy the raw distance at the
first occurrences (`ats_pdb.index`) of the two labels.  A label missing from
`ats_pdb` raises in Python (aborting via the enclosing `except`); the theorems
below only evaluate entries whose labels are present. -/
def distNew (ats atsPdb : List Label) (distPdb : ℕ → ℕ → ℚ) : List (List ℚ) :=
  (List.range ats.length).map fun j =>
    (List.range ats.length).map fun k =>
      if k = j then 0
      else if ats.getD j Label.gap = Label.gap ∨ ats.getD k Label.gap = Label.gap then
        UNREACHABLE
      else
        distPdb (atsPdb.indexOf (ats.getD j Label.gap)) (atsPdb.indexOf (ats.getD k Label.gap))

/-- The standard amino-acid alphabet plus the gap character,
`scaProcessMSA.py` line 121. -/
def isStdAA (c : Char) : Bool :=
  "ACDEFGHIKLMNPQRSTVWY-".toList.contains c

/-- A sequence is valid when every character is a standard amino acid or a gap. -/
def validSeq (s : String) : Bool :=
  s.toList.all isStdAA

/-- Embedding of the sanitisation loop, `scaProcessMSA.py` lines 114-129: a sequence
containing any non-standard character is dropped together with its header; the
function returns `(hd_out, alg_out)`. -/
def sanitize (headers seqs : List String) : List String × List String :=
  let pairs := (List.zip headers seqs).filter fun p => validSeq p.2
  (pairs.map Prod.fst, pairs.map Prod.snd)

/-- Python `range(n)` as a label list: the 0-based default position numbering used
at `scaProcessMSA.py` lines 196, 199, 208 and 219. -/
def defaultPositions (n : ℕ) : List Label :=
  (List.range n).map Label.num

/-- Helper for the ATS build: walk the reference row left to right; gap columns
receive the sentinel, non-gap columns consume the raw labels in order; running out
of labels is an error. -/
def consumeLabels : List Char → List Label → Option (List Label)
  | [], _ => some []
  | c :: cs, ls =>
    if c = '-' then (consumeLabels cs ls).map fun r => Label.gap :: r
    else
      match ls with
      | [] => none
      | l :: ls2 => (consumeLabels cs ls2).map fun r => l :: r

/-- Modelled from the spec: `sca.makeATS` lives in `scaTools.py`, which is absent
from this repository snapshot.  Following spec section 4.2: with `truncate = false`
all columns are kept, reference-gap columns get the sentinel and the remaining
columns consume the raw labels in strict left-to-right order; with `truncate = true`
the reference-gap columns are dropped from the alignment and the ATS keeps only the
labels of surviving columns.  Mismatched label counts fail (spec section 9: fail
loudly), which the caller's `except` turns into an abort. -/
def makeATS (align : List String) (labels : List Label) (_refSeqRaw : String)
    (iRef : ℕ) (truncate : Bool) : Option (List String × List Label) :=
  let refRow := (align.getD iRef "").toList
  if truncate then
    let keep := (List.range refRow.length).filter fun j => decide (refRow.getD j '-' ≠ '-')
    if keep.length ≤ labels.length then
      some (align.map fun s => String.mk (keep.map fun j => s.toList.getD j '-'),
            labels.take keep.length)
    else none
  else
    (consumeLabels refRow labels).map fun ats => (align, ats)

/-- The reference-resolution hints of `scaProcessMSA.py` (`argparse` options):
`i_ref` (explicit index), `pdbid`, `species`, and presence flags for the
reference-sequence file and the reference-position file, plus the truncation flag.
File contents are supplied through `Externals`. -/
structure Options where
  i_ref : Option ℕ
  pdbid : Option String
  species : Option String
  refseq : Bool
  refpos : Bool
  truncate : Bool
deriving DecidableEq, Repr

/-- Outcomes of the external collaborators (all defined in the absent
`scaTools.py`, or file reads): `none` models the call raising an exception.
`pdbSeq` is `sca.pdbSeq` (structure sequence, structure position labels, raw
distance matrix); the three search fields are `sca.MSAsearch` with the species
hint, without it against the PDB sequence, and against the reference-file
sequence; `refseqRead`/`refposRead` are the file reads; `chooseRef` is
`sca.chooseRefSeq`. -/
structure Externals where
  pdbSeq : Option (String × List Label × (ℕ → ℕ → ℚ))
  msaSearchSpecies : Option ℕ
  msaSearchGlobal : Option ℕ
  refseqRead : Option String
  msaSearchRefseq : Option ℕ
  refposRead : Option (List String)
  chooseRef : ℕ

/-- Result of the reference-resolution stage: the resolved index, the (possibly
truncated) alignment, the ATS, and the remapped distance matrix when a PDB was
used. -/
structure Resolution where
  i_ref : ℕ
  sequences : List String
  ats : List Label
  dist : Option (List (List ℚ))
deriving DecidableEq

/-- Embedding of the option normalisation at `scaProcessMSA.py` lines 92-106:
when no explicit index is given, a species hint without a PDB id is discarded, and
a reference-sequence file causes the PDB id to be ignored. -/
def normalizeOpts (o : Options) : Options :=
  match o.i_ref with
  | some _ => o
  | none =>
    let o1 := if o.species.isSome && o.pdbid.isNone then { o with species := none } else o
    if o1.refseq && o1.pdbid.isSome then { o1 with pdbid := none } else o1

/-- The position-label list of the explicit-index branch, `scaProcessMSA.py`
lines 215-219: read the position file when given (`none` result models the read
raising, which the branch's `except` turns into an abort), else default 0-based
numbering over the columns of the pre-trim alignment. -/
def explicitAtsTmp (o : Options) (ext : Externals) (alignOri : List String) :
    Option (List Label) :=
  if o.refpos then ext.refposRead.map fun lines => lines.map Label.str
  else some (defaultPositions (alignOri.headD "").length)

/-- Embedding of the reference-resolution branching, `scaProcessMSA.py`
lines 139-222, on already-normalised options.  `alignFull` is the trimmed
alignment (`sequences_full`), `alignOri` the sanitised pre-trim alignment
(`sequences_ori`).  In the PDB branch the inner `sys.exit` calls raise
`SystemExit`, which the bare outer `except:` catches, so every failure there
surfaces as the outer message. -/
def resolveCore (o : Options) (ext : Externals) (alignFull alignOri : List String) :
    Except String Resolution :=
  match o.i_ref with
  | some i =>
    if i < alignOri.length then
      match explicitAtsTmp o ext alignOri with
      | none => .error "Error!!  Cant find reference sequence..."
      | some lab =>
        match makeATS alignFull lab (alignOri.getD i "") i o.truncate with
        | none => .error "Error!!  Cant find reference sequence..."
        | some (seqs, ats) => .ok ⟨i, seqs, ats, none⟩
    else .error "IndexError: reference index out of range"
  | none =>
    match o.pdbid with
    | some _ =>
      match ext.pdbSeq with
      | none => .error "Error!!! Something wrong with PDBid or path..."
      | some (seqPdb, atsPdb, distPdb) =>
        match (if o.species.isSome then
                 match ext.msaSearchSpecies with
                 | some i => some i
                 | none => ext.msaSearchGlobal
               else ext.msaSearchGlobal) with
        | none => .error "Error!!! Something wrong with PDBid or path..."
        | some i =>
          match makeATS alignFull atsPdb seqPdb i o.truncate with
          | none => .error "Error!!! Something wrong with PDBid or path..."
          | some (seqs, ats) => .ok ⟨i, seqs, ats, some (distNew ats atsPdb distPdb)⟩
    | none =>
      if o.refseq then
        match ext.refseqRead with
        | none => .error "Error!!  Cant find reference sequence..."
        | some sref =>
          match ext.msaSearchRefseq with
          | none => .error "Error!!  Cant find reference sequence..."
          | some i =>
            let lab := if o.refpos then
                         match ext.refposRead with
                         | some lines => lines.map Label.str
                         | none => defaultPositions (alignFull.headD "").length
                       else defaultPositions (alignFull.headD "").length
            match makeATS alignFull lab sref i o.truncate with
            | none => .error "Error!!  Cant find reference sequence..."
            | some (seqs, ats) => .ok ⟨i, seqs, ats, none⟩
      else
        .ok ⟨ext.chooseRef, alignFull, defaultPositions (alignFull.headD "").length, none⟩

/-- Reference resolution as run by the script: normalise the options
(lines 92-106), then branch (lines 139-222). -/
def resolveReference (o : Options) (ext : Externals) (alignFull alignOri : List String) :
    Except String Resolution :=
  resolveCore (normalizeOpts o) ext alignFull alignOri

/-- Embedding of the ATS re-slice after position filtering, `scaProcessMSA.py`
line 246: `ats = [ats[i] for i in iposkeep]`. -/
def resliceAts (ats : List Label) (keep : List ℕ) : List Label :=
  keep.map fun i => ats.getD i Label.gap

/-- Embedding of the distance-matrix re-slice after position filtering,
`scaProcessMSA.py` line 250: `distmat = dist_pdb[np.ix_(iposkeep, iposkeep)]`,
the 2-D index selection. -/
def resliceDist (d : List (List ℚ)) (keep : List ℕ) : List (List ℚ) :=
  keep.map fun a => keep.map fun b => matGet d a b

/-- Modelled from the spec: the column-selection contract of `sca.filterPos`
(absent `scaTools.py`) — the filtered alignment consists exactly of the kept
columns, in order (spec sections 4.4 and 6). -/
def restrictCols (keep : List ℕ) (s : String) : String :=
  String.mk (keep.map fun i => s.toList.getD i '-')

/-- The exported distance matrix, `scaProcessMSA.py` lines 248-252: the re-sliced
matrix when a raw one exists, `None` otherwise. -/
def finalDistmat (d : Option (List (List ℚ))) (keep : List ℕ) :
    Option (List (List ℚ)) :=
  d.map fun m => resliceDist m keep

/-- Python `int()` applied to a float value: truncation toward zero. -/
def pyInt (q : ℚ) : ℤ :=
  if 0 ≤ q then ⌊q⌋ else ⌈q⌉

/-- Embedding of `scaProcessMSA.py` line 254: `effseqsprelimit = int(seqw0.sum())`. -/
def effseqsprelimit (seqw0 : List ℚ) : ℤ :=
  pyInt seqw0.sum

/-- The down-selection target, `scaProcessMSA.py` line 261:
`int(1.5 * effseqsprelimit)`. -/
def nselectTarget (seqw0 : List ℚ) : ℤ :=
  pyInt (mkRat 3 2 * (effseqsprelimit seqw0 : ℚ))

/-- Modelled from the spec: `sca.randSel` (absent `scaTools.py`) draws
`target` indices without replacement from `0..numSeqs-1`, always keeping the
must-keep indices (spec sections 4.4 and 6).  Deterministic model of the random
draw: the must-keep indices followed by the remaining indices in increasing
order, truncated to the target count. -/
def randSel (numSeqs target : ℕ) (mustKeep : List ℕ) : List ℕ :=
  (mustKeep ++ (List.range numSeqs).filter fun j => decide (j ∉ mustKeep)).take target

/-- Embedding of the down-selection call, `scaProcessMSA.py` lines 260-263:
`sca.randSel(seqw0, int(1.5 * effseqsprelimit), [seqkeep.index(i_ref)] if i_ref in
seqkeep else [])`. -/
def seqSelection (seqw0 : List ℚ) (seqkeep : List ℕ) (iRef : ℕ) : List ℕ :=
  randSel seqw0.length (nselectTarget seqw0).toNat
    (if iRef ∈ seqkeep then [seqkeep.indexOf iRef] else [])

/-- A parsed line of `out.freq`: reference amino acid, highest-frequency amino
acid, frequency (`predicted_single_HF_mutations.py`, `parse_out_freq`). -/
structure FreqEntry where
  ref : String
  hf : String
  freq : ℚ
deriving DecidableEq, Repr

/-- A parsed line of `out.txt`: DSSP position, reference amino acid, secondary
structure (`predicted_single_HF_mutations.py`, `parse_out_txt`). -/
structure DsspEntry where
  pos : ℤ
  ref : String
  ss : String
deriving DecidableEq, Repr

/-- A merged output row of `merge_data`: position counter, final reference amino
acid, highest-frequency amino acid, frequency, secondary structure. -/
structure MergedEntry where
  pos : ℕ
  ref : String
  hf : String
  freq : ℚ
  ss : String
deriving DecidableEq, Repr

/-- The two-pointer merge loop of `merge_data`
(`predicted_single_HF_mutations.py` lines 88-112), carrying the position counter:
an `X` line does not consume a DSSP entry and is emitted with secondary structure
`NA`; any other line consumes the next DSSP entry when one remains, else keeps its
own reference with `NA`. -/
def mergeAux : List FreqEntry → List DsspEntry → ℕ → List MergedEntry
  | [], _, _ => []
  | f :: fs, ds, pc =>
    if f.ref = "X" then
      ⟨pc, "X", f.hf, f.freq, "NA"⟩ :: mergeAux fs ds (pc + 1)
    else
      match ds with
      | [] => ⟨pc, f.ref, f.hf, f.freq, "NA"⟩ :: mergeAux fs [] (pc + 1)
      | d :: ds2 => ⟨pc, d.ref, f.hf, f.freq, d.ss⟩ :: mergeAux fs ds2 (pc + 1)

/-- Embedding of `merge_data` (`predicted_single_HF_mutations.py` lines 64-112):
the merge starts with DSSP pointer 0 and position counter 1. -/
def merge_data (freq : List FreqEntry) (dssp : List DsspEntry) : List MergedEntry :=
  mergeAux freq dssp 1

/-- The number of non-`X` frequency entries strictly before index `i`: the value
of the DSSP pointer `j` when `merge_data` reaches entry `i`. -/
def nonXBefore (freq : List FreqEntry) (i : ℕ) : ℕ :=
  ((freq.take i).filter fun f => decide (f.ref ≠ "X")).length

/-- Fixed fallback values for out-of-range list reads in the statements below. -/
def freqD : FreqEntry := ⟨"", "", 0⟩

def dsspD : DsspEntry := ⟨0, "", ""⟩

def mergedD : MergedEntry := ⟨0, "", "", 0, ""⟩
lemma distNew_entry (ats atsPdb : List Label) (distPdb : ℕ → ℕ → ℚ) (j k : ℕ)
    (hj : j < ats.length) (hk : k < ats.length) :
    matGet (distNew ats atsPdb distPdb) j k =
      if k = j then 0
      else if ats.getD j Label.gap = Label.gap ∨ ats.getD k Label.gap = Label.gap then
        UNREACHABLE
      else
        distPdb (atsPdb.indexOf (ats.getD j Label.gap))
          (atsPdb.indexOf (ats.getD k Label.gap)) := by
  have hj' : j < ((List.range ats.length).map fun j =>
      (List.range ats.length).map fun k =>
        if k = j then (0 : ℚ)
        else if ats.getD j Label.gap = Label.gap ∨ ats.getD k Label.gap = Label.gap then
          UNREACHABLE
        else
          distPdb (atsPdb.indexOf (ats.getD j Label.gap))
            (atsPdb.indexOf (ats.getD k Label.gap))).length := by
    simpa using hj
  unfold matGet distNew
  rw [List.getD_eq_getElem _ _ hj', List.getElem_map, List.getElem_range]
  have hk' : k < ((List.range ats.length).map fun k' =>
      if k' = j then (0 : ℚ)
      else if ats.getD j Label.gap = Label.gap ∨ ats.getD k' Label.gap = Label.gap then
        UNREACHABLE
      else
        distPdb (atsPdb.indexOf (ats.getD j Label.gap))
          (atsPdb.indexOf (ats.getD k' Label.gap))).length := by
    simpa using hk
  rw [List.getD_eq_getElem _ _ hk', List.getElem_map, List.getElem_range]

/-- C1: both default-numbering branches use Python `range` over the column count, so
the position-label list is 0-based, not 1-based as the claim (and the script docstring
and its printed messages) state.  Evaluation of the spec scenario: three sequences
`A-CDE / ABCDE / A-CD-`, automatic reference selection picking sequence index 1, no
position hints, `truncate = false`; the resulting ATS is `[0, 1, 2, 3, 4]`, which
contains no gap sentinel but differs from the claimed `[1, 2, 3, 4, 5]`. -/
theorem C1_defaultNumbering_evaluation :
    resolveReference ⟨none, none, none, false, false, false⟩
        ⟨none, none, none, none, none, none, 1⟩
        ["A-CDE", "ABCDE", "A-CD-"] ["A-CDE", "ABCDE", "A-CD-"] =
      .ok ⟨1, ["A-CDE", "ABCDE", "A-CD-"],
           [Label.num 0, Label.num 1, Label.num 2, Label.num 3, Label.num 4], none⟩ ∧
    [Label.num 0, Label.num 1, Label.num 2, Label.num 3, Label.num 4] ≠
      [Label.num 1, Label.num 2, Label.num 3, Label.num 4, Label.num 5] ∧
    Label.gap ∉ [Label.num 0, Label.num 1, Label.num 2, Label.num 3, Label.num 4] :=
  ⟨rfl, by decide, by decide⟩

/-- C2 counterexample: the remap loop only writes entries with `k != j`, so a
gap-labelled column keeps 0 on the diagonal; with `ats = [gap]` the claim's
`D[j,k] = sentinel for all k including k = j` fails at `j = k = 0`. -/
theorem C2_counterexample :
    (([Label.gap] : List Label).getD 0 Label.gap = Label.gap) ∧
    matGet (distNew [Label.gap] [] fun _ _ => 0) 0 0 = 0 ∧
    matGet (distNew [Label.gap] [] fun _ _ => 0) 0 0 ≠ UNREACHABLE :=
  ⟨rfl, rfl, by decide⟩

/-- C2 (amended): in the remapped matrix, a column whose ATS label is the gap
sentinel has the unreachable sentinel in every off-diagonal entry of its row,
while its diagonal entry is left at zero. -/
theorem C2_gapRowSentinel (ats atsPdb : List Label) (distPdb : ℕ → ℕ → ℚ)
    (j k : ℕ) (hj : j < ats.length) (hk : k < ats.length)
    (hgap : ats.getD j Label.gap = Label.gap) :
    (k ≠ j → matGet (distNew ats atsPdb distPdb) j k = UNREACHABLE) ∧
    matGet (distNew ats atsPdb distPdb) j j = 0 := by
  constructor
  · intro hkj
    rw [distNew_entry ats atsPdb distPdb j k hj hk, if_neg hkj, if_pos (Or.inl hgap)]
  · rw [distNew_entry ats atsPdb distPdb j j hj hj, if_pos rfl]

/-- C2 witness: the amended theorem instantiated at `ats = [gap, 3]`. -/
theorem C2_gapRowSentinel_witness :
    (0 < ([Label.gap, Label.num 3] : List Label).length ∧
     1 < ([Label.gap, Label.num 3] : List Label).length ∧
     ([Label.gap, Label.num 3] : List Label).getD 0 Label.gap = Label.gap) ∧
    ((1 ≠ 0 →
        matGet (distNew [Label.gap, Label.num 3] [Label.num 3] fun _ _ => 5) 0 1 =
          UNREACHABLE) ∧
     matGet (distNew [Label.gap, Label.num 3] [Label.num 3] fun _ _ => 5) 0 0 = 0) :=
  ⟨⟨by decide, by decide, by decide⟩,
   C2_gapRowSentinel [Label.gap, Label.num 3] [Label.num 3] (fun _ _ => 5) 0 1
     (by decide) (by decide) (by decide)⟩

/-- C6: for distinct columns whose ATS labels are both real (non-sentinel) labels
present in the raw structure-position list, the remapped entry equals the raw
distance at the structure positions named by the two labels (their first
occurrences in `ats_pdb`, as computed by Python `list.index`), exactly. -/
theorem C6_remapConsistency (ats atsPdb : List Label) (distPdb : ℕ → ℕ → ℚ)
    (j k : ℕ) (hj : j < ats.length) (hk : k < ats.length) (hjk : j ≠ k)
    (hgj : ats.getD j Label.gap ≠ Label.gap) (hgk : ats.getD k Label.gap ≠ Label.gap)
    (hmj : ats.getD j Label.gap ∈ atsPdb) (hmk : ats.getD k Label.gap ∈ atsPdb) :
    matGet (distNew ats atsPdb distPdb) j k =
      distPdb (atsPdb.indexOf (ats.getD j Label.gap))
        (atsPdb.indexOf (ats.getD k Label.gap)) := by
  rw [distNew_entry ats atsPdb distPdb j k hj hk,
      if_neg (fun h => hjk h.symm), if_neg (not_or.mpr ⟨hgj, hgk⟩)]

/-- C6 witness: `ats = [2, 5]`, `ats_pdb = [5, 2]`, so columns 0 and 1 map to
structure indices 1 and 0; the remapped entry is the raw distance value 7. -/
theorem C6_remapConsistency_witness :
    (0 < ([Label.num 2, Label.num 5] : List Label).length ∧
     1 < ([Label.num 2, Label.num 5] : List Label).length ∧
     (0 : ℕ) ≠ 1 ∧
     ([Label.num 2, Label.num 5] : List Label).getD 0 Label.gap ≠ Label.gap ∧
     ([Label.num 2, Label.num 5] : List Label).getD 1 Label.gap ≠ Label.gap ∧
     ([Label.num 2, Label.num 5] : List Label).getD 0 Label.gap ∈
       ([Label.num 5, Label.num 2] : List Label) ∧
     ([Label.num 2, Label.num 5] : List Label).getD 1 Label.gap ∈
       ([Label.num 5, Label.num 2] : List Label)) ∧
    matGet (distNew [Label.num 2, Label.num 5] [Label.num 5, Label.num 2]
        fun a b => if a = 1 ∧ b = 0 then 7 else 0) 0 1 =
      (fun a b => if a = 1 ∧ b = 0 then (7 : ℚ) else 0)
        (([Label.num 5, Label.num 2] : List Label).indexOf
          (([Label.num 2, Label.num 5] : List Label).getD 0 Label.gap))
        (([Label.num 5, Label.num 2] : List Label).indexOf
          (([Label.num 2, Label.num 5] : List Label).getD 1 Label.gap)) :=
  ⟨⟨by decide, by decide, by decide, by decide, by decide, by decide, by decide⟩,
   C6_remapConsistency [Label.num 2, Label.num 5] [Label.num 5, Label.num 2]
     (fun a b => if a = 1 ∧ b = 0 then 7 else 0) 0 1
     (by decide) (by decide) (by decide) (by decide) (by decide) (by decide) (by decide)⟩

/-- C4 counterexample: in the explicit-index branch the position-file read sits in
the same `try` as the ATS build, whose `except` calls `sys.exit`; a failing read
therefore aborts the run instead of falling back to default numbering.  Concrete
input: explicit reference index 0, a position file whose read raises, alignment
`["AC"]`. -/
theorem C4_counterexample :
    resolveReference ⟨some 0, none, none, false, true, false⟩
        ⟨none, none, none, none, none, none, 0⟩ ["AC"] ["AC"] =
      .error "Error!!  Cant find reference sequence..." := rfl

/-- C4 (amended): only the reference-sequence-file branch recovers from a
missing/unparsable position file; there the run proceeds exactly as if no position
file had been supplied (default sequential numbering). -/
theorem C4_refseqBranchFallback (o : Options) (ext : Externals) (a ao : List String)
    (h1 : o.i_ref = none) (h2 : o.refseq = true) (h3 : o.refpos = true)
    (h4 : ext.refposRead = none) :
    resolveReference o ext a ao = resolveReference { o with refpos := false } ext a ao := by
  obtain ⟨ir, pd, sp, rs, rp, tr⟩ := o
  simp only [Options.mk.injEq] at h1 h2 h3 ⊢
  subst h1 h2 h3
  cases sp <;> cases pd <;>
    simp [resolveReference, normalizeOpts, resolveCore, h4]

/-- C4 witness: the fallback equality instantiated at a concrete refseq-branch run. -/
theorem C4_refseqBranchFallback_witness :
    ((⟨none, none, none, true, true, false⟩ : Options).i_ref = none ∧
     (⟨none, none, none, true, true, false⟩ : Options).refseq = true ∧
     (⟨none, none, none, true, true, false⟩ : Options).refpos = true ∧
     (⟨some ("ABC", [], fun _ _ => 0), none, none, some "ACD", some 0, none, 0⟩ :
        Externals).refposRead = none) ∧
    resolveReference ⟨none, none, none, true, true, false⟩
        ⟨some ("ABC", [], fun _ _ => 0), none, none, some "ACD", some 0, none, 0⟩
        ["ACD"] ["ACD"] =
      resolveReference ⟨none, none, none, true, false, false⟩
        ⟨some ("ABC", [], fun _ _ => 0), none, none, some "ACD", some 0, none, 0⟩
        ["ACD"] ["ACD"] :=
  ⟨⟨rfl, rfl, rfl, rfl⟩,
   C4_refseqBranchFallback ⟨none, none, none, true, true, false⟩
     ⟨some ("ABC", [], fun _ _ => 0), none, none, some "ACD", some 0, none, 0⟩
     ["ACD"] ["ACD"] rfl rfl rfl rfl⟩

lemma resliceAts_getD (ats : List Label) (K : List ℕ) (c : ℕ) (hc : c < K.length) :
    (resliceAts ats K).getD c Label.gap = ats.getD (K.getD c 0) Label.gap := by
  unfold resliceAts
  rw [List.getD_eq_getElem _ _ (by simpa using hc), List.getElem_map,
      List.getD_eq_getElem _ _ hc]

lemma resliceDist_entry (d : List (List ℚ)) (K : List ℕ) (a b : ℕ)
    (ha : a < K.length) (hb : b < K.length) :
    matGet (resliceDist d K) a b = matGet d (K.getD a 0) (K.getD b 0) := by
  rw [List.getD_eq_getElem _ _ ha, List.getD_eq_getElem _ _ hb]
  have h1 : (resliceDist d K).getD a [] = K.map fun j => matGet d (K.get ⟨a, ha⟩) j := by
    unfold resliceDist
    rw [List.getD_eq_getElem _ _ (by simpa using ha), List.getElem_map]
    rfl
  show ((resliceDist d K).getD a []).getD b 0 = _
  rw [h1, List.getD_eq_getElem _ _ (by simpa using hb), List.getElem_map]
  rfl

/-- C5: after position filtering with kept-column list `K`, the re-sliced ATS has
one label per kept column (entry `c` is the old label at column `K[c]`), its length
equals the column count of the filtered alignment, and the re-sliced distance
matrix is the 2-D index selection: entry `(a, b)` of the new matrix is entry
`(K[a], K[b])` of the old one. -/
theorem C5_resliceConsistency (ats : List Label) (d : List (List ℚ)) (K : List ℕ)
    (s : String) (a b c : ℕ) (ha : a < K.length) (hb : b < K.length)
    (hc : c < K.length) :
    (resliceAts ats K).length = K.length ∧
    (restrictCols K s).length = (resliceAts ats K).length ∧
    (resliceAts ats K).getD c Label.gap = ats.getD (K.getD c 0) Label.gap ∧
    matGet (resliceDist d K) a b = matGet d (K.getD a 0) (K.getD b 0) := by
  refine ⟨by simp [resliceAts], ?_, resliceAts_getD ats K c hc,
    resliceDist_entry d K a b ha hb⟩
  simp only [restrictCols, resliceAts, List.length_map]
  exact List.length_map _ _

/-- C5 witness: `K = [0, 2]` applied to a 3-column ATS and 3-by-3 matrix. -/
theorem C5_resliceConsistency_witness :
    (0 < ([0, 2] : List ℕ).length ∧ 1 < ([0, 2] : List ℕ).length ∧
     1 < ([0, 2] : List ℕ).length) ∧
    ((resliceAts [Label.num 5, Label.gap, Label.num 7] [0, 2]).length =
        ([0, 2] : List ℕ).length ∧
     (restrictCols [0, 2] "ABC").length =
        (resliceAts [Label.num 5, Label.gap, Label.num 7] [0, 2]).length ∧
     (resliceAts [Label.num 5, Label.gap, Label.num 7] [0, 2]).getD 1 Label.gap =
        ([Label.num 5, Label.gap, Label.num 7] : List Label).getD
          (([0, 2] : List ℕ).getD 1 0) Label.gap ∧
     matGet (resliceDist [[0, 1, 2], [1, 0, 3], [2, 3, 0]] [0, 2]) 0 1 =
        matGet [[0, 1, 2], [1, 0, 3], [2, 3, 0]]
          (([0, 2] : List ℕ).getD 0 0) (([0, 2] : List ℕ).getD 1 0)) :=
  ⟨⟨by decide, by decide, by decide⟩,
   C5_resliceConsistency [Label.num 5, Label.gap, Label.num 7]
     [[0, 1, 2], [1, 0, 3], [2, 3, 0]] [0, 2] "ABC" 0 1 1
     (by decide) (by decide) (by decide)⟩

/-- C7: with a PDB id and a species hint, when the species-constrained search
fails the run behaves exactly as the unconstrained run on the same inputs — in
particular the resolved index is whatever the unconstrained search returns — and
when the unconstrained search also fails, resolution fails fatally. -/
theorem C7_speciesFallback (o : Options) (ext : Externals) (a ao : List String)
    (h1 : o.i_ref = none) (h2 : o.pdbid.isSome = true) (h3 : o.refseq = false)
    (h4 : o.species.isSome = true) (h5 : ext.msaSearchSpecies = none) :
    resolveReference o ext a ao = resolveReference { o with species := none } ext a ao ∧
    (ext.msaSearchGlobal = none →
      ∃ msg, resolveReference o ext a ao = .error msg) := by
  obtain ⟨ir, pd, sp, rs, rp, tr⟩ := o
  simp only at h1 h2 h3 h4
  subst h1 h3
  obtain ⟨p, rfl⟩ := Option.isSome_iff_exists.mp h2
  obtain ⟨s, rfl⟩ := Option.isSome_iff_exists.mp h4
  constructor
  · cases hps : ext.pdbSeq with
    | none => simp [resolveReference, normalizeOpts, resolveCore, hps]
    | some v =>
      obtain ⟨sq, ap, dm⟩ := v
      simp [resolveReference, normalizeOpts, resolveCore, hps, h5]
  · intro hg
    cases hps : ext.pdbSeq with
    | none =>
      exact ⟨"Error!!! Something wrong with PDBid or path...",
        by simp [resolveReference, normalizeOpts, resolveCore, hps]⟩
    | some v =>
      obtain ⟨sq, ap, dm⟩ := v
      exact ⟨"Error!!! Something wrong with PDBid or path...",
        by simp [resolveReference, normalizeOpts, resolveCore, hps, h5, hg]⟩

/-- C7 witness: species-constrained search failing, unconstrained search
returning index 0. -/
theorem C7_speciesFallback_witness :
    ((⟨none, some "1RX2", some "Homo sapiens", false, false, false⟩ : Options).i_ref =
        none ∧
     (⟨none, some "1RX2", some "Homo sapiens", false, false, false⟩ :
        Options).pdbid.isSome = true ∧
     (⟨none, some "1RX2", some "Homo sapiens", false, false, false⟩ :
        Options).refseq = false ∧
     (⟨none, some "1RX2", some "Homo sapiens", false, false, false⟩ :
        Options).species.isSome = true ∧
     (⟨some ("AC", [Label.num 1, Label.num 2], fun _ _ => 0), none, some 0,
         none, none, none, 0⟩ : Externals).msaSearchSpecies = none) ∧
    (resolveReference ⟨none, some "1RX2", some "Homo sapiens", false, false, false⟩
        ⟨some ("AC", [Label.num 1, Label.num 2], fun _ _ => 0), none, some 0,
         none, none, none, 0⟩ ["AC"] ["AC"] =
      resolveReference
        ({ (⟨none, some "1RX2", some "Homo sapiens", false, false, false⟩ : Options) with
            species := none })
        ⟨some ("AC", [Label.num 1, Label.num 2], fun _ _ => 0), none, some 0,
         none, none, none, 0⟩ ["AC"] ["AC"] ∧
     ((⟨some ("AC", [Label.num 1, Label.num 2], fun _ _ => 0), none, some 0,
          none, none, none, 0⟩ : Externals).msaSearchGlobal = none →
       ∃ msg, resolveReference
           ⟨none, some "1RX2", some "Homo sapiens", false, false, false⟩
           ⟨some ("AC", [Label.num 1, Label.num 2], fun _ _ => 0), none, some 0,
            none, none, none, 0⟩ ["AC"] ["AC"] = .error msg)) :=
  ⟨⟨rfl, rfl, rfl, rfl, rfl⟩,
   C7_speciesFallback ⟨none, some "1RX2", some "Homo sapiens", false, false, false⟩
     ⟨some ("AC", [Label.num 1, Label.num 2], fun _ _ => 0), none, some 0,
      none, none, none, 0⟩ ["AC"] ["AC"] rfl rfl rfl rfl rfl⟩

/-- C8: when an explicit reference index is supplied, the resolution result uses
exactly that index — whatever PDB id, species hint, or reference-sequence file is
also present — no structure is fetched, the resolution's distance matrix is
`none`, and the exported distance matrix after position filtering is likewise
absent. -/
theorem C8_explicitIndexWins (o : Options) (ext : Externals) (a ao : List String)
    (i : ℕ) (lab : List Label) (seqs : List String) (ats : List Label) (keep : List ℕ)
    (h1 : o.i_ref = some i) (h2 : i < ao.length)
    (h3 : explicitAtsTmp o ext ao = some lab)
    (h4 : makeATS a lab (ao.getD i "") i o.truncate = some (seqs, ats)) :
    resolveReference o ext a ao = .ok ⟨i, seqs, ats, none⟩ ∧
    finalDistmat (Resolution.dist ⟨i, seqs, ats, none⟩) keep = none := by
  have hn : normalizeOpts o = o := by unfold normalizeOpts; rw [h1]
  refine ⟨?_, rfl⟩
  unfold resolveReference
  rw [hn]
  unfold resolveCore
  rw [h1]
  simp only [if_pos h2, h3, h4]

/-- C8 witness: explicit index 0 together with a PDB id, a species hint and a
reference-sequence file; the result still uses index 0 and carries no distance
matrix. -/
theorem C8_explicitIndexWins_witness :
    ((⟨some 0, some "1RX2", some "Homo sapiens", true, false, false⟩ :
        Options).i_ref = some 0 ∧
     0 < (["ACD"] : List String).length ∧
     explicitAtsTmp ⟨some 0, some "1RX2", some "Homo sapiens", true, false, false⟩
        ⟨none, none, none, none, none, none, 0⟩ ["ACD"] =
       some [Label.num 0, Label.num 1, Label.num 2] ∧
     makeATS ["ACD"] [Label.num 0, Label.num 1, Label.num 2]
        ((["ACD"] : List String).getD 0 "") 0 false =
       some (["ACD"], [Label.num 0, Label.num 1, Label.num 2])) ∧
    (resolveReference ⟨some 0, some "1RX2", some "Homo sapiens", true, false, false⟩
        ⟨none, none, none, none, none, none, 0⟩ ["ACD"] ["ACD"] =
      .ok ⟨0, ["ACD"], [Label.num 0, Label.num 1, Label.num 2], none⟩ ∧
     finalDistmat
        (Resolution.dist ⟨0, ["ACD"], [Label.num 0, Label.num 1, Label.num 2], none⟩)
        [0] = none) :=
  ⟨⟨rfl, by decide, rfl, rfl⟩,
   C8_explicitIndexWins ⟨some 0, some "1RX2", some "Homo sapiens", true, false, false⟩
     ⟨none, none, none, none, none, none, 0⟩ ["ACD"] ["ACD"] 0
     [Label.num 0, Label.num 1, Label.num 2] ["ACD"]
     [Label.num 0, Label.num 1, Label.num 2] [0] rfl (by decide) rfl rfl⟩

lemma length_filter_add_not (l : List ℕ) (p : ℕ → Bool) :
    (l.filter p).length + (l.filter fun x => !(p x)).length = l.length := by
  induction l with
  | nil => rfl
  | cons x l ih =>
    cases h : p x <;> simp [List.filter_cons, h] <;> omega

lemma length_filter_mem (n : ℕ) (mk : List ℕ) (hnd : mk.Nodup)
    (hsub : ∀ x ∈ mk, x < n) :
    (((List.range n).filter fun j => decide (j ∈ mk))).length = mk.length := by
  set A := (List.range n).filter fun j => decide (j ∈ mk) with hA
  have hAnd : A.Nodup := (List.nodup_range n).filter _
  have hAsub : A ⊆ mk := by
    intro x hx
    rw [hA, List.mem_filter] at hx
    simpa using hx.2
  have hmksub : mk ⊆ A := by
    intro x hx
    rw [hA, List.mem_filter]
    exact ⟨List.mem_range.mpr (hsub x hx), by simpa using hx⟩
  exact le_antisymm ((hAnd.subperm hAsub).length_le) ((hnd.subperm hmksub).length_le)

lemma randSel_spec (n t : ℕ) (mk : List ℕ) (hnd : mk.Nodup)
    (hsub : ∀ x ∈ mk, x < n) (ht : t ≤ n) (hmk : mk.length ≤ t) :
    (randSel n t mk).length = t ∧ ∀ x ∈ mk, x ∈ randSel n t mk := by
  have hrest : (((List.range n).filter fun j => decide (j ∉ mk))).length =
      n - mk.length := by
    have h1 := length_filter_add_not (List.range n) fun j => decide (j ∈ mk)
    have h2 : ((List.range n).filter fun j => !(decide (j ∈ mk))) =
        (List.range n).filter fun j => decide (j ∉ mk) := by
      simp [decide_not]
    rw [h2, length_filter_mem n mk hnd hsub, List.length_range] at h1
    omega
  have hlen : (mk ++ (List.range n).filter fun j => decide (j ∉ mk)).length = n := by
    rw [List.length_append, hrest]
    have : mk.length ≤ n := le_trans hmk ht
    omega
  constructor
  · unfold randSel
    rw [List.length_take, hlen]
    omega
  · intro x hx
    unfold randSel
    rw [List.take_append_eq_append_take, List.take_of_length_le hmk]
    exact List.mem_append_left _ hx

/-- C3 counterexample: four retained sequences with weight 0.7 each give an
effective count of 2.8; the claim predicts `floor(1.5 * 2.8) = 4` selected
sequences, but the code first truncates the effective count
(`effseqsprelimit = int(seqw0.sum())` = 2) and then takes `int(1.5 * 2) = 3`. -/
theorem C3_counterexample :
    (seqSelection [mkRat 7 10, mkRat 7 10, mkRat 7 10, mkRat 7 10] [0, 1, 2, 3] 0).length
      = 3 ∧
    ⌊(3 / 2 : ℚ) * ([mkRat 7 10, mkRat 7 10, mkRat 7 10, mkRat 7 10] : List ℚ).sum⌋
      = 4 ∧
    (3 : ℕ) ≠ 4 := by
  have hsum : ([mkRat 7 10, mkRat 7 10, mkRat 7 10, mkRat 7 10] : List ℚ).sum =
      mkRat 14 5 := by
    norm_num [Rat.mkRat_eq_div]
  have htgt : nselectTarget [mkRat 7 10, mkRat 7 10, mkRat 7 10, mkRat 7 10] = 3 := by
    rw [nselectTarget, effseqsprelimit, hsum]
    norm_num [pyInt, Rat.mkRat_eq_div]
  refine ⟨?_, ?_, by decide⟩
  · unfold seqSelection
    rw [htgt]
    decide
  · rw [hsum]
    norm_num [Rat.mkRat_eq_div]

/-- C3 (amended): when down-selection is enabled and the target does not exceed
the retained-sequence count, the number of selected sequences equals
`int(1.5 * int(sum of post-filter weights))` — the effective count is truncated
to an integer before the multiplication by 1.5 — and, whenever the reference
survived sequence filtering, its index within the filtered alignment
(`seqkeep.index(i_ref)`) is among the selected indices. -/
theorem C3_amendedSelection (seqw0 : List ℚ) (seqkeep : List ℕ) (iRef : ℕ)
    (hmem : iRef ∈ seqkeep)
    (ht : (nselectTarget seqw0).toNat ≤ seqw0.length)
    (h1 : 1 ≤ (nselectTarget seqw0).toNat)
    (hidx : seqkeep.indexOf iRef < seqw0.length) :
    (seqSelection seqw0 seqkeep iRef).length = (nselectTarget seqw0).toNat ∧
    seqkeep.indexOf iRef ∈ seqSelection seqw0 seqkeep iRef := by
  unfold seqSelection
  rw [if_pos hmem]
  have h := randSel_spec seqw0.length (nselectTarget seqw0).toNat
    [seqkeep.indexOf iRef] (List.nodup_singleton _)
    (by intro x hx; rw [List.mem_singleton] at hx; omega) ht (by simpa using h1)
  exact ⟨h.1, h.2 _ (List.mem_singleton.mpr rfl)⟩

/-- C3 witness: a single retained sequence of weight 1 (effective count 1,
target `int(1.5) = 1`), with the reference surviving at filtered position 0. -/
theorem C3_amendedSelection_witness :
    (0 ∈ ([0] : List ℕ) ∧
     (nselectTarget [(1 : ℚ)]).toNat ≤ ([(1 : ℚ)] : List ℚ).length ∧
     1 ≤ (nselectTarget [(1 : ℚ)]).toNat ∧
     ([0] : List ℕ).indexOf 0 < ([(1 : ℚ)] : List ℚ).length) ∧
    ((seqSelection [(1 : ℚ)] [0] 0).length = (nselectTarget [(1 : ℚ)]).toNat ∧
     ([0] : List ℕ).indexOf 0 ∈ seqSelection [(1 : ℚ)] [0] 0) := by
  have htgt : nselectTarget [(1 : ℚ)] = 1 := by
    rw [nselectTarget, effseqsprelimit, List.sum_singleton]
    norm_num [pyInt, Rat.mkRat_eq_div]
  refine ⟨⟨by decide, ?_, ?_, by decide⟩,
    C3_amendedSelection [(1 : ℚ)] [0] 0 (by decide) ?_ ?_ (by decide)⟩ <;>
    rw [htgt] <;> decide

lemma mergeAux_length (fs : List FreqEntry) (ds : List DsspEntry) (pc : ℕ) :
    (mergeAux fs ds pc).length = fs.length := by
  induction fs generalizing ds pc with
  | nil => rfl
  | cons f fs ih =>
    by_cases h : f.ref = "X"
    · simp [mergeAux, h, ih]
    · cases ds <;> simp [mergeAux, h, ih]

lemma nonXBefore_cons_x (f : FreqEntry) (fs : List FreqEntry) (n : ℕ)
    (h : f.ref = "X") : nonXBefore (f :: fs) (n + 1) = nonXBefore fs n := by
  simp [nonXBefore, List.take_succ_cons, List.filter_cons, h]

lemma nonXBefore_cons_nx (f : FreqEntry) (fs : List FreqEntry) (n : ℕ)
    (h : ¬ f.ref = "X") : nonXBefore (f :: fs) (n + 1) = nonXBefore fs n + 1 := by
  simp [nonXBefore, List.take_succ_cons, List.filter_cons, h, Nat.add_comm]

lemma mergeAux_getD (fs : List FreqEntry) (ds : List DsspEntry) (pc i : ℕ)
    (hi : i < fs.length) :
    (mergeAux fs ds pc).getD i mergedD =
      (if (fs.getD i freqD).ref = "X" then
        ⟨pc + i, "X", (fs.getD i freqD).hf, (fs.getD i freqD).freq, "NA"⟩
      else
        match ds.drop (nonXBefore fs i) with
        | [] => ⟨pc + i, (fs.getD i freqD).ref, (fs.getD i freqD).hf,
                 (fs.getD i freqD).freq, "NA"⟩
        | d :: _ => ⟨pc + i, d.ref, (fs.getD i freqD).hf,
                     (fs.getD i freqD).freq, d.ss⟩) := by
  induction fs generalizing ds pc i with
  | nil => simp at hi
  | cons f fs ih =>
    cases i with
    | zero =>
      by_cases h : f.ref = "X"
      · simp [mergeAux, h, nonXBefore]
      · cases ds <;> simp [mergeAux, h, nonXBefore]
    | succ n =>
      have hn : n < fs.length := by simpa using hi
      have harith : pc + 1 + n = pc + (n + 1) := by omega
      by_cases h : f.ref = "X"
      · have hm : mergeAux (f :: fs) ds pc =
            ⟨pc, "X", f.hf, f.freq, "NA"⟩ :: mergeAux fs ds (pc + 1) := by
          simp [mergeAux, h]
        rw [hm, List.getD_cons_succ, ih ds (pc + 1) n hn,
            nonXBefore_cons_x f fs n h, List.getD_cons_succ, harith]
      · cases ds with
        | nil =>
          have hm : mergeAux (f :: fs) [] pc =
              ⟨pc, f.ref, f.hf, f.freq, "NA"⟩ :: mergeAux fs [] (pc + 1) := by
            simp [mergeAux, h]
          rw [hm, List.getD_cons_succ, ih [] (pc + 1) n hn,
              nonXBefore_cons_nx f fs n h, List.getD_cons_succ, harith]
          simp
        | cons d ds2 =>
          have hm : mergeAux (f :: fs) (d :: ds2) pc =
              ⟨pc, d.ref, f.hf, f.freq, d.ss⟩ :: mergeAux fs ds2 (pc + 1) := by
            simp [mergeAux, h]
          rw [hm, List.getD_cons_succ, ih ds2 (pc + 1) n hn,
              nonXBefore_cons_nx f fs n h, List.getD_cons_succ, harith,
              List.drop_succ_cons]

/-- C9: `merge_data` returns one tuple per frequency entry, the `i`-th carrying
position counter `i + 1`; an entry whose reference amino acid is `X` is emitted as
`(i+1, X, hf, freq, NA)` without consuming a DSSP entry, and an entry whose
reference is not `X` takes its final reference and secondary structure from the
DSSP entry at index `nonXBefore freq i` (the number of earlier non-`X` entries,
i.e. DSSP entries are consumed strictly in order) whenever that index is in
range. -/
theorem C9_mergeData (freq : List FreqEntry) (dssp : List DsspEntry) (i : ℕ)
    (hi : i < freq.length) :
    (merge_data freq dssp).length = freq.length ∧
    ((merge_data freq dssp).getD i mergedD).pos = i + 1 ∧
    ((freq.getD i freqD).ref = "X" →
      (merge_data freq dssp).getD i mergedD =
        ⟨i + 1, "X", (freq.getD i freqD).hf, (freq.getD i freqD).freq, "NA"⟩) ∧
    ((freq.getD i freqD).ref ≠ "X" → nonXBefore freq i < dssp.length →
      ((merge_data freq dssp).getD i mergedD).ref =
        (dssp.getD (nonXBefore freq i) dsspD).ref ∧
      ((merge_data freq dssp).getD i mergedD).ss =
        (dssp.getD (nonXBefore freq i) dsspD).ss) := by
  have hch := mergeAux_getD freq dssp 1 i hi
  have hone : (1 : ℕ) + i = i + 1 := by omega
  refine ⟨mergeAux_length freq dssp 1, ?_, ?_, ?_⟩
  · show ((mergeAux freq dssp 1).getD i mergedD).pos = i + 1
    rw [hch]
    by_cases h : (freq.getD i freqD).ref = "X"
    · rw [if_pos h, hone]
    · rw [if_neg h]
      cases hd : dssp.drop (nonXBefore freq i) <;> simp [hone]
  · intro h
    show (mergeAux freq dssp 1).getD i mergedD = _
    rw [hch, if_pos h, hone]
  · intro h hlt
    have hdrop : dssp.drop (nonXBefore freq i) =
        dssp.getD (nonXBefore freq i) dsspD :: dssp.drop (nonXBefore freq i + 1) := by
      rw [List.drop_eq_getElem_cons hlt, List.getD_eq_getElem _ _ hlt]
    have hm := hch
    rw [if_neg h, hdrop] at hm
    constructor
    · show ((mergeAux freq dssp 1).getD i mergedD).ref = _
      rw [hm]
    · show ((mergeAux freq dssp 1).getD i mergedD).ss = _
      rw [hm]

/-- C9 witness: three frequency entries with an `X` in the middle and two DSSP
entries; at index 2 the second DSSP entry (index 1 = number of earlier non-`X`
entries) supplies reference and secondary structure. -/
theorem C9_mergeData_witness :
    2 < ([⟨"A", "B", 1⟩, ⟨"X", "C", 2⟩, ⟨"G", "D", 3⟩] : List FreqEntry).length ∧
    ((merge_data [⟨"A", "B", 1⟩, ⟨"X", "C", 2⟩, ⟨"G", "D", 3⟩]
        [⟨1, "A", "H"⟩, ⟨2, "G", "C"⟩]).length =
      ([⟨"A", "B", 1⟩, ⟨"X", "C", 2⟩, ⟨"G", "D", 3⟩] : List FreqEntry).length ∧
     ((merge_data [⟨"A", "B", 1⟩, ⟨"X", "C", 2⟩, ⟨"G", "D", 3⟩]
        [⟨1, "A", "H"⟩, ⟨2, "G", "C"⟩]).getD 2 mergedD).pos = 2 + 1 ∧
     ((([⟨"A", "B", 1⟩, ⟨"X", "C", 2⟩, ⟨"G", "D", 3⟩] :
          List FreqEntry).getD 2 freqD).ref = "X" →
       (merge_data [⟨"A", "B", 1⟩, ⟨"X", "C", 2⟩, ⟨"G", "D", 3⟩]
          [⟨1, "A", "H"⟩, ⟨2, "G", "C"⟩]).getD 2 mergedD =
         ⟨2 + 1, "X",
          (([⟨"A", "B", 1⟩, ⟨"X", "C", 2⟩, ⟨"G", "D", 3⟩] :
             List FreqEntry).getD 2 freqD).hf,
          (([⟨"A", "B", 1⟩, ⟨"X", "C", 2⟩, ⟨"G", "D", 3⟩] :
             List FreqEntry).getD 2 freqD).freq, "NA"⟩) ∧
     ((([⟨"A", "B", 1⟩, ⟨"X", "C", 2⟩, ⟨"G", "D", 3⟩] :
          List FreqEntry).getD 2 freqD).ref ≠ "X" →
       nonXBefore [⟨"A", "B", 1⟩, ⟨"X", "C", 2⟩, ⟨"G", "D", 3⟩] 2 <
         ([⟨1, "A", "H"⟩, ⟨2, "G", "C"⟩] : List DsspEntry).length →
       ((merge_data [⟨"A", "B", 1⟩, ⟨"X", "C", 2⟩, ⟨"G", "D", 3⟩]
           [⟨1, "A", "H"⟩, ⟨2, "G", "C"⟩]).getD 2 mergedD).ref =
         (([⟨1, "A", "H"⟩, ⟨2, "G", "C"⟩] : List DsspEntry).getD
           (nonXBefore [⟨"A", "B", 1⟩, ⟨"X", "C", 2⟩, ⟨"G", "D", 3⟩] 2) dsspD).ref ∧
       ((merge_data [⟨"A", "B", 1⟩, ⟨"X", "C", 2⟩, ⟨"G", "D", 3⟩]
           [⟨1, "A", "H"⟩, ⟨2, "G", "C"⟩]).getD 2 mergedD).ss =
         (([⟨1, "A", "H"⟩, ⟨2, "G", "C"⟩] : List DsspEntry).getD
           (nonXBefore [⟨"A", "B", 1⟩, ⟨"X", "C", 2⟩, ⟨"G", "D", 3⟩] 2) dsspD).ss)) :=
  ⟨by decide,
   C9_mergeData [⟨"A", "B", 1⟩, ⟨"X", "C", 2⟩, ⟨"G", "D", 3⟩]
     [⟨1, "A", "H"⟩, ⟨2, "G", "C"⟩] 2 (by decide)⟩

lemma filter_map_snd (l : List (String × String)) (p : String → Bool) :
    (l.filter fun x => p x.2).map Prod.snd = (l.map Prod.snd).filter p := by
  induction l with
  | nil => rfl
  | cons a l ih => cases h : p a.2 <;> simp [List.filter_cons, h, ih]

lemma zip_map_fst_snd_self (l : List (String × String)) :
    List.zip (l.map Prod.fst) (l.map Prod.snd) = l := by
  induction l with
  | nil => rfl
  | cons a l ih => simp [ih]

lemma map_snd_zip_of_length_eq (headers seqs : List String)
    (h : headers.length = seqs.length) :
    (List.zip headers seqs).map Prod.snd = seqs := by
  induction headers generalizing seqs with
  | nil => cases seqs <;> simp_all
  | cons a l ih =>
    cases seqs with
    | nil => simp at h
    | cons b m => simp_all

/-- C10: the sanitisation pass keeps exactly the header/sequence pairs whose
sequence uses only the 20 standard amino-acid letters and the gap character:
every retained sequence is valid, the retained sequences are the valid ones in
order, and headers travel with their sequences. -/
theorem C10_sanitization (headers seqs : List String)
    (h : headers.length = seqs.length) :
    (∀ s ∈ (sanitize headers seqs).2, validSeq s = true) ∧
    (sanitize headers seqs).2 = seqs.filter validSeq ∧
    List.zip (sanitize headers seqs).1 (sanitize headers seqs).2 =
      (List.zip headers seqs).filter fun p => validSeq p.2 := by
  have h2 : (sanitize headers seqs).2 = seqs.filter validSeq := by
    show ((List.zip headers seqs).filter fun p => validSeq p.2).map Prod.snd = _
    rw [filter_map_snd, map_snd_zip_of_length_eq headers seqs h]
  refine ⟨?_, h2, ?_⟩
  · intro s hs
    rw [h2] at hs
    exact (List.mem_filter.mp hs).2
  · exact zip_map_fst_snd_self _

/-- C10 witness: a two-sequence alignment where the second sequence contains the
non-standard letter `Z` and is dropped together with its header. -/
theorem C10_sanitization_witness :
    (["h1", "h2"] : List String).length = (["ACD", "AZD"] : List String).length ∧
    ((∀ s ∈ (sanitize ["h1", "h2"] ["ACD", "AZD"]).2, validSeq s = true) ∧
     (sanitize ["h1", "h2"] ["ACD", "AZD"]).2 =
       (["ACD", "AZD"] : List String).filter validSeq ∧
     List.zip (sanitize ["h1", "h2"] ["ACD", "AZD"]).1
         (sanitize ["h1", "h2"] ["ACD", "AZD"]).2 =
       (List.zip ["h1", "h2"] ["ACD", "AZD"]).filter fun p => validSeq p.2) :=
  ⟨by decide, C10_sanitization ["h1", "h2"] ["ACD", "AZD"] (by decide)⟩
